import Mathlib

/-!
Verification development for the ptau (Powers of Tau) file reader
(`src/ptau.rs`, function `read`).

The reader is shallowly embedded: the input file is a list of bytes
(`List Nat`, each entry a byte value), the open file handle is a
`ByteStream` (the byte list plus the current position), and every Rust
operation that the reader performs on the handle is translated into an
explicit function on `ByteStream`.  Fallible steps yield an `Outcome`:
`ok` mirrors `Ok`, `err` mirrors `Err(Error::...)`, and `fatal` mirrors a
Rust panic (an `unwrap()` on a failed read, a failed UTF-8 conversion, or
a `BTreeMap` index on a missing key).  Integer reads are little-endian,
and the usize arithmetic on the point-count bounds is modelled with the
explicit two's-complement wrap of a 64-bit machine word (release-profile
semantics of the shift and of `wrapping` overflow).

The finite-field backend (arkworks) is out of scope per the spec: field
elements are modelled as `ZMod p` for the BN254 base-field modulus `p`,
construction of an element from 32 little-endian bytes is reduction of
the little-endian value mod `p`, and the two on-curve predicates are the
BN254 curve equation `y^2 = x^3 + 3` and its twist
`y^2 = x^3 + 3/(9+u)` over `Fq2 = Fq[u]/(u^2+1)`.
-/

namespace Ptau

set_option maxRecDepth 80000

/-- The BN254 base-field modulus (the `Fq` modulus of `ark_bn254`). -/
def pMod : Nat := 21888242871839275222246405745257275088696311157297823662689037894645226208583

/-- Base-field elements, as integers mod `pMod`. -/
abbrev Fq : Type := ZMod pMod

/-- Quadratic-extension elements `c0 + c1*u`, as pairs of base-field elements. -/
abbrev Fq2 : Type := Fq × Fq

/-- Affine G1 point: `(x, y)` over the base field. -/
abbrev G1Pt : Type := Fq × Fq

/-- Affine G2 point: `(x, y)` over the quadratic extension. -/
abbrev G2Pt : Type := Fq2 × Fq2

/-- Multiplication in `Fq2 = Fq[u]/(u^2 + 1)`. -/
def fq2Mul (a b : Fq2) : Fq2 := (a.1 * b.1 - a.2 * b.2, a.1 * b.2 + a.2 * b.1)

/-- Addition in `Fq2`. -/
def fq2Add (a b : Fq2) : Fq2 := (a.1 + b.1, a.2 + b.2)

/-- The G2 twist coefficient `b' = 3/(9+u) = (27/82, -3/82)`, with the two
components given by their canonical representatives (the `COEFF_B`
constants of `ark_bn254`'s G2 configuration). -/
def bTwist : Fq2 :=
  ((19485874751759354771024239261021720505790618469301721065564631296452457478373 : Fq),
   (266929791119991161246907387137283842545076965332900288569378510910307636690 : Fq))

/-- The G1 on-curve predicate of the backend: `y^2 = x^3 + 3`. -/
def onCurveG1 (pt : G1Pt) : Prop := pt.2 * pt.2 = pt.1 * pt.1 * pt.1 + 3

instance (pt : G1Pt) : Decidable (onCurveG1 pt) :=
  inferInstanceAs (Decidable (pt.2 * pt.2 = pt.1 * pt.1 * pt.1 + 3))

/-- The G2 on-twisted-curve predicate of the backend: `y^2 = x^3 + b'`. -/
def onCurveG2 (pt : G2Pt) : Prop :=
  fq2Mul pt.2 pt.2 = fq2Add (fq2Mul (fq2Mul pt.1 pt.1) pt.1) bTwist

instance (pt : G2Pt) : Decidable (onCurveG2 pt) :=
  inferInstanceAs (Decidable (fq2Mul pt.2 pt.2 = fq2Add (fq2Mul (fq2Mul pt.1 pt.1) pt.1) bTwist))

/-- The error enum of `src/ptau.rs`. -/
inductive Error where
  | InvalidMagicString
  | InvalidVersion
  | InvalidPrimeOrder
  | InvalidNumSections
  | InvalidNumG1Points
  | InvalidNumG2Points
  | InvalidG1Point
  | InvalidG2Point
deriving DecidableEq, Repr

/-- The ways the Rust code can panic rather than return a typed error:
a failed UTF-8 conversion of the magic bytes (`from_utf8(..).unwrap()`),
an `unwrap()` on a reader hitting end-of-file, and a `BTreeMap` index
`sections[&id]` on an absent section identifier. -/
inductive AbortKind where
  | utf8Error
  | shortRead
  | missingSection (id : Nat)
deriving DecidableEq, Repr

/-- Result of a stage of the reader: a value, a typed `Error`, or a panic. -/
inductive Outcome (α : Type) where
  | ok : α → Outcome α
  | err : Error → Outcome α
  | fatal : AbortKind → Outcome α
deriving DecidableEq, Repr

/-- The open file handle: the file's bytes plus the stream position. -/
structure ByteStream where
  file : List Nat
  pos : Nat
deriving DecidableEq, Repr

/-- Little-endian value of a byte list. -/
def leNat : List Nat → Nat
  | [] => 0
  | b :: bs => b + 256 * leNat bs

/-- Value of an 8-byte little-endian buffer as a signed 64-bit integer. -/
def asI64 (v : Nat) : Int := if v < 2 ^ 63 then (v : Int) else (v : Int) - 2 ^ 64

/-- The `n` bytes of `file` starting at `pos`, zero-padded past end of file.
This is the buffer a zero-initialised `read_exact(&mut buf)` leaves behind
when its error (if any) is discarded. -/
def bytesPad (file : List Nat) (pos n : Nat) : List Nat :=
  (file.drop pos).take n ++ List.replicate (n - ((file.drop pos).take n).length) 0

/-- Stream position after reading up to `n` bytes from position `pos`:
the position advances by the number of bytes actually available. -/
def stepPos (file : List Nat) (pos n : Nat) : Nat :=
  pos + ((file.drop pos).take n).length

/-- Result of one `read_exact` call: the (possibly zero-padded) buffer,
whether the full `n` bytes were available, and the advanced stream. -/
structure ReadRes where
  buf : List Nat
  full : Bool
  s : ByteStream
deriving DecidableEq, Repr

/-- Model of `f.read_exact(&mut [0u8; n])`: returns the filled buffer
(zero-padded when the file runs out), a flag recording whether the call
succeeded, and the advanced stream. -/
def readExact (n : Nat) (s : ByteStream) : ReadRes :=
  ⟨bytesPad s.file s.pos n, decide (n ≤ s.file.length - s.pos), ⟨s.file, stepPos s.file s.pos n⟩⟩

/-- Model of `f.read_u32::<LittleEndian>().unwrap()`: panics on a short read. -/
def readU32 (s : ByteStream) : Outcome (Nat × ByteStream) :=
  let r := readExact 4 s
  if r.full then .ok (leNat r.buf, r.s) else .fatal .shortRead

/-- Model of `f.read_i64::<LittleEndian>().unwrap()`: panics on a short read. -/
def readI64 (s : ByteStream) : Outcome (Int × ByteStream) :=
  let r := readExact 8 s
  if r.full then .ok (asI64 (leNat r.buf), r.s) else .fatal .shortRead

/-- Model of `f.seek(SeekFrom::Start(off))`. -/
def seekTo (s : ByteStream) (off : Nat) : ByteStream := ⟨s.file, off⟩

/-- Model of `let _ = f.seek(SeekFrom::Current(delta))`: a seek to a negative
position fails, and the discarded error leaves the position unchanged. -/
def seekCur (s : ByteStream) (delta : Int) : ByteStream :=
  if (s.pos : Int) + delta < 0 then s else ⟨s.file, ((s.pos : Int) + delta).toNat⟩

/-- Continuation byte of a multi-byte UTF-8 sequence: `0x80..0xBF`. -/
def utf8Cont (b : Nat) : Bool := 128 ≤ b && b ≤ 191

/-- Admissible second byte of a three-byte UTF-8 sequence led by `b`. -/
def utf8Snd3 (b c : Nat) : Bool :=
  if b = 224 then 160 ≤ c && c ≤ 191
  else if b = 237 then 128 ≤ c && c ≤ 159
  else utf8Cont c

/-- Admissible second byte of a four-byte UTF-8 sequence led by `b`. -/
def utf8Snd4 (b c : Nat) : Bool :=
  if b = 240 then 144 ≤ c && c ≤ 191
  else if b = 244 then 128 ≤ c && c ≤ 143
  else utf8Cont c

/-- UTF-8 validity of a byte list, as checked by `std::str::from_utf8`. -/
def validUtf8 : List Nat → Bool
  | [] => true
  | b :: rest =>
    if b < 128 then validUtf8 rest
    else if 194 ≤ b && b ≤ 223 then
      match rest with
      | c :: rest2 => utf8Cont c && validUtf8 rest2
      | [] => false
    else if 224 ≤ b && b ≤ 239 then
      match rest with
      | c :: d :: rest3 => utf8Snd3 b c && utf8Cont d && validUtf8 rest3
      | _ => false
    else if 240 ≤ b && b ≤ 244 then
      match rest with
      | c :: d :: e :: rest4 => utf8Snd4 b c && utf8Cont d && utf8Cont e && validUtf8 rest4
      | _ => false
    else false

/-- The ASCII bytes of the magic string literal `"ptau"`. -/
def ptauMagic : List Nat := [112, 116, 97, 117]

/-- The section directory, keyed by section identifier, mapping to the byte
offset of the section's payload.  Insertion conses, and lookup takes the
most recently inserted binding, which matches `BTreeMap::insert`'s
overwrite-on-duplicate behaviour as observed through lookups. -/
abbrev Dir : Type := List (Nat × Nat)

/-- Lookup in the section directory: the most recent binding for `k` wins. -/
def lookupDir (d : Dir) (k : Nat) : Option Nat :=
  match d.find? (fun e => e.1 == k) with
  | some e => some e.2
  | none => none

/-- The section-directory loop (lines 51-57 of `ptau.rs`): for each entry,
read a u32 identifier and an i64 length, record the current position as the
payload offset, and skip `length` bytes. -/
def readSectionEntries : Nat → Dir → ByteStream → Outcome (Dir × ByteStream)
  | 0, d, s => .ok (d, s)
  | n + 1, d, s =>
    match readU32 s with
    | .err e => .err e
    | .fatal k => .fatal k
    | .ok (num, s1) =>
      match readI64 s1 with
      | .err e => .err e
      | .fatal k => .fatal k
      | .ok (size, s2) => readSectionEntries n ((num, s2.pos) :: d) (seekCur s2 size)

/-- Ghost companion of `readSectionEntries` that returns the section entries
`(identifier, payload offset)` in file order instead of as a directory. -/
def entriesOf : Nat → ByteStream → Outcome (List (Nat × Nat) × ByteStream)
  | 0, s => .ok ([], s)
  | n + 1, s =>
    match readU32 s with
    | .err e => .err e
    | .fatal k => .fatal k
    | .ok (num, s1) =>
      match readI64 s1 with
      | .err e => .err e
      | .fatal k => .fatal k
      | .ok (size, s2) =>
        match entriesOf n (seekCur s2 size) with
        | .err e => .err e
        | .fatal k => .fatal k
        | .ok (es, sEnd) => .ok ((num, s2.pos) :: es, sEnd)

/-- The Header Scanner (lines 29-57): magic string (via a UTF-8 conversion
that panics on invalid bytes), version, section count, then the section
directory. -/
def scanFile (file : List Nat) : Outcome (Dir × ByteStream) :=
  let r := readExact 4 ⟨file, 0⟩
  if validUtf8 r.buf then
    if r.buf = ptauMagic then
      match readU32 r.s with
      | .err e => .err e
      | .fatal k => .fatal k
      | .ok (version, s2) =>
        if version = 1 then
          match readU32 s2 with
          | .err e => .err e
          | .fatal k => .fatal k
          | .ok (numSections, s3) =>
            if numSections = 11 then readSectionEntries numSections [] s3
            else .err .InvalidNumSections
        else .err .InvalidVersion
    else .err .InvalidMagicString
  else .fatal .utf8Error

/-- The modulus validation (lines 65-82): the reader counts the zero bytes of
the whole `n8`-byte buffer and rejects when the count is exactly 32, then
rejects when the buffer's little-endian value reduced mod `pMod` is nonzero. -/
def checkModulus (qBuf : List Nat) : Option Error :=
  if qBuf.count 0 = 32 then some .InvalidPrimeOrder
  else if (leNat qBuf : Fq) ≠ 0 then some .InvalidPrimeOrder
  else none

/-- The Field-Parameter Reader (lines 59-88), up to and including the
`ceremony_power` read: seeks to section 1 (panicking if absent), reads `n8`,
the modulus buffer, validates it, and reads `power` and `ceremony_power`.
Returns the declared `power` and the advanced stream. -/
def parseHeader (d : Dir) (s : ByteStream) : Outcome (Nat × ByteStream) :=
  match lookupDir d 1 with
  | none => .fatal (.missingSection 1)
  | some off =>
    match readU32 (seekTo s off) with
    | .err e => .err e
    | .fatal k => .fatal k
    | .ok (n8, s1) =>
      let rq := readExact n8 s1
      match checkModulus rq.buf with
      | some e => .err e
      | none =>
        match readU32 rq.s with
        | .err e => .err e
        | .fatal k => .fatal k
        | .ok (power, s2) =>
          match readU32 s2 with
          | .err e => .err e
          | .fatal k => .fatal k
          | .ok (_ceremonyPower, s3) => .ok (power, s3)

/-- The value of `1 << power` on a 64-bit `usize` (release-profile semantics:
the shift amount is masked to the word width). -/
def maxG2Of (power : Nat) : Nat := (1 <<< (power % 64)) % 2 ^ 64

/-- The value of `max_g2_points * 2 - 1` on a 64-bit `usize`, with wrapping
multiplication and subtraction. -/
def maxG1Of (power : Nat) : Nat := (maxG2Of power * 2 % 2 ^ 64 + (2 ^ 64 - 1)) % 2 ^ 64

/-- The point-count checks (lines 90-97): G1 bound first, then G2 bound. -/
def checkCounts (power numG1 numG2 : Nat) : Option Error :=
  if numG1 > maxG1Of power then some .InvalidNumG1Points
  else if numG2 > maxG2Of power then some .InvalidNumG2Points
  else none

/-- Everything before the point decoders: header scan, field parameters, and
the count checks.  Returns the section directory and the stream as left by
the header reads. -/
def afterHeader (file : List Nat) (numG1 numG2 : Nat) : Outcome (Dir × ByteStream) :=
  match scanFile file with
  | .err e => .err e
  | .fatal k => .fatal k
  | .ok (d, s) =>
    match parseHeader d s with
    | .err e => .err e
    | .fatal k => .fatal k
    | .ok (power, s1) =>
      match checkCounts power numG1 numG2 with
      | some e => .err e
      | none => .ok (d, s1)

/-- One decoded G1 point (lines 104-113): 32 bytes `x`, then 32 bytes `y`. -/
def mkG1 (xBuf yBuf : List Nat) : G1Pt := ((leNat xBuf : Fq), (leNat yBuf : Fq))

/-- The G1 decoding loop (lines 103-118): per point, read the two coordinate
buffers, build the point, reject with `InvalidG1Point` if it is off-curve,
otherwise keep it and continue. -/
def readG1Points : Nat → ByteStream → Outcome (List G1Pt × ByteStream)
  | 0, s => .ok ([], s)
  | n + 1, s =>
    let rx := readExact 32 s
    let ry := readExact 32 rx.s
    let pt := mkG1 rx.buf ry.buf
    if onCurveG1 pt then
      match readG1Points n ry.s with
      | .ok (rest, sEnd) => .ok (pt :: rest, sEnd)
      | .err e => .err e
      | .fatal k => .fatal k
    else .err .InvalidG1Point

/-- One decoded G2 point (lines 125-143): 32-byte buffers `x0, x1, y0, y1`,
combined into extension-field coordinates `(x0 + x1*u, y0 + y1*u)`. -/
def mkG2 (x0Buf x1Buf y0Buf y1Buf : List Nat) : G2Pt :=
  (((leNat x0Buf : Fq), (leNat x1Buf : Fq)), ((leNat y0Buf : Fq), (leNat y1Buf : Fq)))

/-- The G2 decoding loop (lines 124-148). -/
def readG2Points : Nat → ByteStream → Outcome (List G2Pt × ByteStream)
  | 0, s => .ok ([], s)
  | n + 1, s =>
    let rx0 := readExact 32 s
    let rx1 := readExact 32 rx0.s
    let ry0 := readExact 32 rx1.s
    let ry1 := readExact 32 ry0.s
    let pt := mkG2 rx0.buf rx1.buf ry0.buf ry1.buf
    if onCurveG2 pt then
      match readG2Points n ry1.s with
      | .ok (rest, sEnd) => .ok (pt :: rest, sEnd)
      | .err e => .err e
      | .fatal k => .fatal k
    else .err .InvalidG2Point

/-- The two point-decoding stages (lines 99-149): seek to section 2
(panicking if absent) and decode the G1 points, then seek to section 3
(panicking if absent) and decode the G2 points. -/
def pointStages (d : Dir) (s : ByteStream) (numG1 numG2 : Nat) :
    Outcome (List G1Pt × List G2Pt) :=
  match lookupDir d 2 with
  | none => .fatal (.missingSection 2)
  | some off2 =>
    match readG1Points numG1 (seekTo s off2) with
    | .err e => .err e
    | .fatal k => .fatal k
    | .ok (g1s, s2) =>
      match lookupDir d 3 with
      | none => .fatal (.missingSection 3)
      | some off3 =>
        match readG2Points numG2 (seekTo s2 off3) with
        | .err e => .err e
        | .fatal k => .fatal k
        | .ok (g2s, _) => .ok (g1s, g2s)

/-- The complete `read` entry point of `src/ptau.rs` (lines 22-150), over the
file's bytes and the two caller-requested point counts. -/
def read (file : List Nat) (numG1 numG2 : Nat) : Outcome (List G1Pt × List G2Pt) :=
  match afterHeader file numG1 numG2 with
  | .err e => .err e
  | .fatal k => .fatal k
  | .ok (d, s) => pointStages d s numG1 numG2

/-- The ceremony power a file's header declares: the `power` field produced
by a successful header scan followed by a successful field-parameter read. -/
def headerPowerOf (file : List Nat) : Option Nat :=
  match scanFile file with
  | .ok (d, s) =>
    match parseHeader d s with
    | .ok (power, _) => some power
    | _ => none
  | _ => none

/-- The payload offset the scanned section directory records for section 1. -/
def section1Off (file : List Nat) : Option Nat :=
  match scanFile file with
  | .ok (d, _) => lookupDir d 1
  | _ => none

/-- The payload offset of section 2, available once every stage before the
G1 decoder has succeeded for the given requested counts. -/
def g1StageOff (file : List Nat) (numG1 numG2 : Nat) : Option Nat :=
  match afterHeader file numG1 numG2 with
  | .ok (d, _) => lookupDir d 2
  | _ => none

/-- The payload offset of section 3, available once every stage before the
G2 decoder (including the whole G1 decoding loop) has succeeded. -/
def g2StageOff (file : List Nat) (numG1 numG2 : Nat) : Option Nat :=
  match afterHeader file numG1 numG2 with
  | .ok (d, s) =>
    match lookupDir d 2 with
    | some off2 =>
      match readG1Points numG1 (seekTo s off2) with
      | .ok _ => lookupDir d 3
      | _ => none
    | none => none
  | _ => none

/-- The G1 point stored in record `i` of a G1 section starting at `off`:
each record is 64 bytes, `x` first, then `y`. -/
def g1At (file : List Nat) (off i : Nat) : G1Pt :=
  mkG1 (bytesPad file (off + 64 * i) 32) (bytesPad file (off + 64 * i + 32) 32)

/-- The G2 point stored in record `i` of a G2 section starting at `off`:
each record is 128 bytes, `x0, x1, y0, y1` in order. -/
def g2At (file : List Nat) (off i : Nat) : G2Pt :=
  mkG2 (bytesPad file (off + 128 * i) 32) (bytesPad file (off + 128 * i + 32) 32)
    (bytesPad file (off + 128 * i + 64) 32) (bytesPad file (off + 128 * i + 96) 32)

/-- Modelled from the spec: the spec's own wording of the `InvalidPrimeOrder`
condition, "the buffer is all-zero bytes across its first 32 bytes ... OR
the buffer, interpreted as a little-endian integer and reduced modulo the
curve's base-field modulus, is nonzero".  Kept separate from the source's
`checkModulus` so the two can be compared. -/
def specPrimeOrderRejects (qBuf : List Nat) : Bool :=
  ((qBuf.take 32).all fun b => b == 0) || decide ((leNat qBuf : Fq) ≠ 0)

/-- Little-endian byte encoding of `v` in exactly `n` bytes. -/
def bytesLE : Nat → Nat → List Nat
  | _, 0 => []
  | v, n + 1 => v % 256 :: bytesLE (v / 256) n

/-- Four-byte little-endian encoding (a u32 field). -/
def u32le (v : Nat) : List Nat := bytesLE v 4

/-- Eight-byte little-endian encoding (an i64 length field, non-negative). -/
def u64le (v : Nat) : List Nat := bytesLE v 8

/-- Thirty-two-byte little-endian encoding (a base-field coordinate). -/
def fe32 (v : Nat) : List Nat := bytesLE v 32

/-- The canonical little-endian encoding of the BN254 base-field modulus. -/
def pModBytes : List Nat := fe32 pMod

/-- One on-disk section: identifier, declared length, payload. -/
def sectionEntry (id len : Nat) (payload : List Nat) : List Nat :=
  u32le id ++ u64le len ++ payload

/-- A header-section payload: `n8`, modulus buffer, `power`, `ceremony_power`. -/
def headerPayload (n8 : Nat) (qBuf : List Nat) (power ceremony : Nat) : List Nat :=
  u32le n8 ++ qBuf ++ u32le power ++ u32le ceremony

/-- A well-formed ptau container: magic, version 1, 11 sections, with the
given header, G1 and G2 payloads in sections 1-3 and empty sections 4-11. -/
def mkPtauFile (hdr g1Bytes g2Bytes : List Nat) : List Nat :=
  ptauMagic ++ u32le 1 ++ u32le 11 ++
  sectionEntry 1 hdr.length hdr ++
  sectionEntry 2 g1Bytes.length g1Bytes ++
  sectionEntry 3 g2Bytes.length g2Bytes ++
  sectionEntry 4 0 [] ++ sectionEntry 5 0 [] ++ sectionEntry 6 0 [] ++
  sectionEntry 7 0 [] ++ sectionEntry 8 0 [] ++ sectionEntry 9 0 [] ++
  sectionEntry 10 0 [] ++ sectionEntry 11 0 []

/-- One G1 record: the coordinates `(x, y)` little-endian. -/
def g1Rec (x y : Nat) : List Nat := fe32 x ++ fe32 y

/-- One G2 record: the four coordinates little-endian. -/
def g2Rec (x0 x1 y0 y1 : Nat) : List Nat := fe32 x0 ++ fe32 x1 ++ fe32 y0 ++ fe32 y1

/-- A valid power-8 file with no point records (enough to exercise the
header checks of the spec's power-8 example). -/
def file8 : List Nat := mkPtauFile (headerPayload 32 pModBytes 8 8) [] []

/-- A file whose header declares `power = 64`, tripping the 64-bit shift. -/
def file64 : List Nat := mkPtauFile (headerPayload 32 pModBytes 64 64) [] []

/-- A file whose modulus field is 33 bytes long and all zero: 33 zero bytes,
so the `num_zeroes == 32` test does not fire. -/
def file33 : List Nat := mkPtauFile (headerPayload 33 (List.replicate 33 0) 0 0) [] []

/-- A power-1 file whose G1 section holds the generator `(1, 2)` followed by
the off-curve point `(1, 3)`. -/
def fileBadG1 : List Nat :=
  mkPtauFile (headerPayload 32 pModBytes 1 1) (g1Rec 1 2 ++ g1Rec 1 3) []

/-- A power-1 file whose G2 section holds the off-twist point `(0, 0)`. -/
def fileBadG2 : List Nat :=
  mkPtauFile (headerPayload 32 pModBytes 1 1) [] (g2Rec 0 0 0 0)

/-- A power-1 file whose G1 section holds the single valid generator. -/
def fileGood : List Nat := mkPtauFile (headerPayload 32 pModBytes 1 1) (g1Rec 1 2) []

/-- A container whose directory lists identifier 3 twice (entries 3 and 10,
0-based index 2 and 9), all sections empty. -/
def fileDup3 : List Nat :=
  ptauMagic ++ u32le 1 ++ u32le 11 ++
  sectionEntry 1 0 [] ++ sectionEntry 2 0 [] ++ sectionEntry 3 0 [] ++
  sectionEntry 4 0 [] ++ sectionEntry 5 0 [] ++ sectionEntry 6 0 [] ++
  sectionEntry 7 0 [] ++ sectionEntry 8 0 [] ++ sectionEntry 9 0 [] ++
  sectionEntry 3 0 [] ++ sectionEntry 11 0 []

/-- A truncated container: the last directory entry declares section 1 with
length 1000, but the file ends right after that entry's header, so the
header section's payload is missing entirely. -/
def fileTrunc : List Nat :=
  ptauMagic ++ u32le 1 ++ u32le 11 ++
  sectionEntry 2 0 [] ++ sectionEntry 3 0 [] ++ sectionEntry 4 0 [] ++
  sectionEntry 5 0 [] ++ sectionEntry 6 0 [] ++ sectionEntry 7 0 [] ++
  sectionEntry 8 0 [] ++ sectionEntry 9 0 [] ++ sectionEntry 10 0 [] ++
  sectionEntry 11 0 [] ++ u32le 1 ++ u64le 1000

/-- A container whose directory never lists section identifier 1. -/
def fileNo1 : List Nat :=
  ptauMagic ++ u32le 1 ++ u32le 11 ++
  sectionEntry 4 0 [] ++ sectionEntry 5 0 [] ++ sectionEntry 6 0 [] ++
  sectionEntry 7 0 [] ++ sectionEntry 8 0 [] ++ sectionEntry 9 0 [] ++
  sectionEntry 10 0 [] ++ sectionEntry 11 0 [] ++ sectionEntry 12 0 [] ++
  sectionEntry 13 0 [] ++ sectionEntry 14 0 []

/-- The modulus buffer of the header section whose payload starts at `off`:
the reader first reads the 4-byte `n8` at `off`, then `n8` raw bytes. -/
def qBufAt (file : List Nat) (off : Nat) : List Nat :=
  bytesPad file (off + 4) (leNat (bytesPad file off 4))

/-- Sanity check tying the hard-coded twist constant to its definition
`3/(9+u)`: multiplying by `82 = (9+u)(9-u)` recovers `3*(9-u) = 27 - 3u`. -/
theorem bTwist_spec : (82 : Fq) * bTwist.1 = 27 ∧ (82 : Fq) * bTwist.2 = -3 := by
  constructor <;> decide

/-- Reading past the end of the file yields only the zero padding. -/
theorem bytesPad_of_ge (file : List Nat) {q : Nat} (n : Nat) (h : file.length ≤ q) :
    bytesPad file q n = List.replicate n 0 := by
  unfold bytesPad
  rw [List.drop_eq_nil_of_le h]
  simp

/-- The advanced position equals the requested one or both lie past the end
of the file. -/
theorem stepPos_cases (file : List Nat) (pos k : Nat) :
    stepPos file pos k = pos + k ∨
      (file.length ≤ stepPos file pos k ∧ file.length ≤ pos + k) := by
  unfold stepPos
  simp only [List.length_take, List.length_drop]
  omega

/-- Bytes read after an advanced position are the bytes at the requested
position: either the positions agree, or both are past the end of file and
only padding is produced. -/
theorem stepPos_bytesPad_add (file : List Nat) (pos k m n : Nat) :
    bytesPad file (stepPos file pos k + m) n = bytesPad file (pos + (k + m)) n := by
  rcases stepPos_cases file pos k with h | ⟨h1, h2⟩
  · rw [h, Nat.add_assoc]
  · rw [bytesPad_of_ge file n (by omega), bytesPad_of_ge file n (by omega)]

/-- Variant of `stepPos_bytesPad_add` for a read exactly at the advanced
position. -/
theorem stepPos_bytesPad (file : List Nat) (pos k n : Nat) :
    bytesPad file (stepPos file pos k) n = bytesPad file (pos + k) n := by
  rcases stepPos_cases file pos k with h | ⟨h1, h2⟩
  · rw [h]
  · rw [bytesPad_of_ge file n (by omega), bytesPad_of_ge file n (by omega)]

/-- When the requested bytes are in range, the position advances exactly. -/
theorem stepPos_of_le (file : List Nat) {pos k : Nat} (h : pos + k ≤ file.length) :
    stepPos file pos k = pos + k := by
  unfold stepPos
  simp only [List.length_take, List.length_drop]
  omega

/-- A u32 read never produces a typed error. -/
theorem readU32_no_err (s : ByteStream) (e : Error) : readU32 s ≠ .err e := by
  simp only [readU32]
  split <;> simp

/-- An i64 read never produces a typed error. -/
theorem readI64_no_err (s : ByteStream) (e : Error) : readI64 s ≠ .err e := by
  simp only [readI64]
  split <;> simp

/-- A u32 read does not change the underlying file. -/
theorem readU32_file (s : ByteStream) {v : Nat} {s1 : ByteStream}
    (h : readU32 s = .ok (v, s1)) : s1.file = s.file := by
  simp only [readU32] at h
  split at h
  · cases h; rfl
  · cases h

/-- An i64 read does not change the underlying file. -/
theorem readI64_file (s : ByteStream) {v : Int} {s1 : ByteStream}
    (h : readI64 s = .ok (v, s1)) : s1.file = s.file := by
  simp only [readI64] at h
  split at h
  · cases h; rfl
  · cases h

/-- A relative seek does not change the underlying file. -/
theorem seekCur_file (s : ByteStream) (delta : Int) : (seekCur s delta).file = s.file := by
  unfold seekCur
  split <;> rfl

/-- The section-directory loop never produces a typed error: it performs no
validation at all, in particular no check of a section length against the
file size. -/
theorem readSectionEntries_no_err :
    ∀ (n : Nat) (d : Dir) (s : ByteStream) (e : Error), readSectionEntries n d s ≠ .err e := by
  intro n
  induction n with
  | zero => intro d s e h; cases h
  | succ n ih =>
    intro d s e h
    unfold readSectionEntries at h
    cases hu : readU32 s with
    | err e1 => exact readU32_no_err s e1 hu
    | fatal k => simp only [hu] at h; exact Outcome.noConfusion h
    | ok v =>
      obtain ⟨num, s1⟩ := v
      simp only [hu] at h
      cases hi : readI64 s1 with
      | err e1 => exact readI64_no_err s1 e1 hi
      | fatal k => simp only [hi] at h; exact Outcome.noConfusion h
      | ok w =>
        obtain ⟨size, s2⟩ := w
        simp only [hi] at h
        exact ih _ _ e h

/-- The section-directory loop leaves the underlying file unchanged. -/
theorem readSectionEntries_file :
    ∀ (n : Nat) (d : Dir) (s : ByteStream) (d1 : Dir) (s1 : ByteStream),
      readSectionEntries n d s = .ok (d1, s1) → s1.file = s.file := by
  intro n
  induction n with
  | zero => intro d s d1 s1 h; cases h; rfl
  | succ n ih =>
    intro d s d1 s1 h
    unfold readSectionEntries at h
    cases hu : readU32 s with
    | err e1 => simp only [hu] at h; exact Outcome.noConfusion h
    | fatal k => simp only [hu] at h; exact Outcome.noConfusion h
    | ok v =>
      obtain ⟨num, sa⟩ := v
      simp only [hu] at h
      cases hi : readI64 sa with
      | err e1 => simp only [hi] at h; exact Outcome.noConfusion h
      | fatal k => simp only [hi] at h; exact Outcome.noConfusion h
      | ok w =>
        obtain ⟨size, sb⟩ := w
        simp only [hi] at h
        have := ih _ _ _ _ h
        rw [this, seekCur_file, readI64_file sa hi, readU32_file s hu]

/-- The directory the loop builds is the reverse of the entry list collected
by `entriesOf`, consed onto the inherited directory. -/
theorem readSectionEntries_entriesOf :
    ∀ (n : Nat) (d : Dir) (s : ByteStream),
      readSectionEntries n d s =
        match entriesOf n s with
        | .ok (es, sEnd) => .ok (es.reverse ++ d, sEnd)
        | .err e => .err e
        | .fatal k => .fatal k := by
  intro n
  induction n with
  | zero => intro d s; simp [readSectionEntries, entriesOf]
  | succ n ih =>
    intro d s
    unfold readSectionEntries entriesOf
    cases hu : readU32 s with
    | err e1 => simp only
    | fatal k => simp only
    | ok v =>
      obtain ⟨num, s1⟩ := v
      simp only
      cases hi : readI64 s1 with
      | err e1 => simp only
      | fatal k => simp only
      | ok w =>
        obtain ⟨size, s2⟩ := w
        simp only
        rw [ih]
        cases he : entriesOf n (seekCur s2 size) with
        | err e1 => simp only [he]
        | fatal k => simp only [he]
        | ok p =>
          obtain ⟨es, sEnd⟩ := p
          simp [he, List.append_assoc]

/-- The only typed errors the Header Scanner can produce are the magic,
version and section-count validation errors. -/
theorem scanFile_err (file : List Nat) (e : Error) (h : scanFile file = .err e) :
    e = .InvalidMagicString ∨ e = .InvalidVersion ∨ e = .InvalidNumSections := by
  unfold scanFile at h
  dsimp only at h
  split at h
  · split at h
    · cases hu : readU32 (readExact 4 ⟨file, 0⟩).s with
      | err e1 => exact absurd hu (readU32_no_err _ e1)
      | fatal k => simp only [hu] at h; exact Outcome.noConfusion h
      | ok v =>
        obtain ⟨version, s2⟩ := v
        simp only [hu] at h
        split at h
        · cases hu2 : readU32 s2 with
          | err e1 => exact absurd hu2 (readU32_no_err _ e1)
          | fatal k => simp only [hu2] at h; exact Outcome.noConfusion h
          | ok w =>
            obtain ⟨numSections, s3⟩ := w
            simp only [hu2] at h
            split at h
            · exact absurd h (readSectionEntries_no_err _ _ _ e)
            · cases h; right; right; rfl
        · cases h; right; left; rfl
    · cases h; left; rfl
  · cases h

/-- A successful header scan leaves the underlying file unchanged. -/
theorem scanFile_file (file : List Nat) (d : Dir) (s : ByteStream)
    (h : scanFile file = .ok (d, s)) : s.file = file := by
  unfold scanFile at h
  dsimp only at h
  split at h
  · split at h
    · cases hu : readU32 (readExact 4 ⟨file, 0⟩).s with
      | err e1 => exact absurd hu (readU32_no_err _ e1)
      | fatal k => simp only [hu] at h; exact Outcome.noConfusion h
      | ok v =>
        obtain ⟨version, s2⟩ := v
        simp only [hu] at h
        split at h
        · cases hu2 : readU32 s2 with
          | err e1 => exact absurd hu2 (readU32_no_err _ e1)
          | fatal k => simp only [hu2] at h; exact Outcome.noConfusion h
          | ok w =>
            obtain ⟨numSections, s3⟩ := w
            simp only [hu2] at h
            split at h
            · have h3 := readSectionEntries_file _ _ _ _ _ h
              rw [h3, readU32_file s2 hu2, readU32_file _ hu]
              rfl
            · exact Outcome.noConfusion h
        · exact Outcome.noConfusion h
    · exact Outcome.noConfusion h
  · exact Outcome.noConfusion h

/-- The modulus check produces only `InvalidPrimeOrder`. -/
theorem checkModulus_some (q : List Nat) (e : Error) (h : checkModulus q = some e) :
    e = .InvalidPrimeOrder := by
  unfold checkModulus at h
  split at h
  · cases h; rfl
  · split at h
    · cases h; rfl
    · cases h

/-- The modulus check rejects exactly when the buffer has exactly 32 zero
bytes in total or its little-endian value is nonzero mod `pMod`. -/
theorem checkModulus_some_iff (q : List Nat) :
    checkModulus q = some .InvalidPrimeOrder ↔
      (q.count 0 = 32 ∨ (leNat q : Fq) ≠ 0) := by
  unfold checkModulus
  split
  · simp_all
  · split
    · simp_all
    · simp_all

/-- The Field-Parameter Reader produces only the `InvalidPrimeOrder` typed
error. -/
theorem parseHeader_err (d : Dir) (s : ByteStream) (e : Error)
    (h : parseHeader d s = .err e) : e = .InvalidPrimeOrder := by
  simp only [parseHeader] at h
  cases hl : lookupDir d 1 with
  | none => simp only [hl] at h; exact Outcome.noConfusion h
  | some off =>
    simp only [hl] at h
    cases hu : readU32 (seekTo s off) with
    | err e1 => exact absurd hu (readU32_no_err _ e1)
    | fatal k => simp only [hu] at h; exact Outcome.noConfusion h
    | ok v =>
      obtain ⟨n8, s1⟩ := v
      simp only [hu] at h
      cases hm : checkModulus (readExact n8 s1).buf with
      | some e1 =>
        simp only [hm] at h
        cases h
        exact checkModulus_some _ _ hm
      | none =>
        simp only [hm] at h
        cases hu2 : readU32 (readExact n8 s1).s with
        | err e1 => exact absurd hu2 (readU32_no_err _ e1)
        | fatal k => simp only [hu2] at h; exact Outcome.noConfusion h
        | ok w =>
          obtain ⟨power, s2⟩ := w
          simp only [hu2] at h
          cases hu3 : readU32 s2 with
          | err e1 => exact absurd hu3 (readU32_no_err _ e1)
          | fatal k => simp only [hu3] at h; exact Outcome.noConfusion h
          | ok u =>
            obtain ⟨cer, s3⟩ := u
            simp only [hu3] at h
            exact Outcome.noConfusion h

/-- When section 1 is present, the only panic the Field-Parameter Reader can
raise is a short read. -/
theorem parseHeader_fatal (d : Dir) (s : ByteStream) (off : Nat) (k : AbortKind)
    (hl : lookupDir d 1 = some off) (h : parseHeader d s = .fatal k) : k = .shortRead := by
  simp only [parseHeader, hl] at h
  cases hu : readU32 (seekTo s off) with
  | err e1 => exact absurd hu (readU32_no_err _ e1)
  | fatal k1 =>
    simp only [hu] at h
    cases h
    simp only [readU32] at hu
    split at hu
    · cases hu
    · cases hu; rfl
  | ok v =>
    obtain ⟨n8, s1⟩ := v
    simp only [hu] at h
    cases hm : checkModulus (readExact n8 s1).buf with
    | some e1 => simp only [hm] at h; exact Outcome.noConfusion h
    | none =>
      simp only [hm] at h
      cases hu2 : readU32 (readExact n8 s1).s with
      | err e1 => exact absurd hu2 (readU32_no_err _ e1)
      | fatal k1 =>
        simp only [hu2] at h
        cases h
        simp only [readU32] at hu2
        split at hu2
        · cases hu2
        · cases hu2; rfl
      | ok w =>
        obtain ⟨power, s2⟩ := w
        simp only [hu2] at h
        cases hu3 : readU32 s2 with
        | err e1 => exact absurd hu3 (readU32_no_err _ e1)
        | fatal k1 =>
          simp only [hu3] at h
          cases h
          simp only [readU32] at hu3
          split at hu3
          · cases hu3
          · cases hu3; rfl
        | ok u =>
          obtain ⟨cer, s3⟩ := u
          simp only [hu3] at h
          exact Outcome.noConfusion h

/-- A successful field-parameter read leaves the underlying file unchanged. -/
theorem parseHeader_file (d : Dir) (s : ByteStream) (power : Nat) (s1 : ByteStream)
    (h : parseHeader d s = .ok (power, s1)) : s1.file = s.file := by
  simp only [parseHeader] at h
  cases hl : lookupDir d 1 with
  | none => simp only [hl] at h; exact Outcome.noConfusion h
  | some off =>
    simp only [hl] at h
    cases hu : readU32 (seekTo s off) with
    | err e1 => exact absurd hu (readU32_no_err _ e1)
    | fatal k => simp only [hu] at h; exact Outcome.noConfusion h
    | ok v =>
      obtain ⟨n8, sa⟩ := v
      simp only [hu] at h
      cases hm : checkModulus (readExact n8 sa).buf with
      | some e1 => simp only [hm] at h; exact Outcome.noConfusion h
      | none =>
        simp only [hm] at h
        cases hu2 : readU32 (readExact n8 sa).s with
        | err e1 => exact absurd hu2 (readU32_no_err _ e1)
        | fatal k => simp only [hu2] at h; exact Outcome.noConfusion h
        | ok w =>
          obtain ⟨pw, sb⟩ := w
          simp only [hu2] at h
          cases hu3 : readU32 sb with
          | err e1 => exact absurd hu3 (readU32_no_err _ e1)
          | fatal k => simp only [hu3] at h; exact Outcome.noConfusion h
          | ok u =>
            obtain ⟨cer, sc⟩ := u
            simp only [hu3] at h
            cases h
            have h3 := readU32_file sb hu3
            have h2 := readU32_file (readExact n8 sa).s hu2
            have h1 := readU32_file (seekTo s off) hu
            rw [h3, h2]
            show sa.file = s.file
            rw [h1]
            rfl

/-- The count checks produce only the two count errors, G1 first. -/
theorem checkCounts_some (power numG1 numG2 : Nat) (e : Error)
    (h : checkCounts power numG1 numG2 = some e) :
    e = .InvalidNumG1Points ∨ e = .InvalidNumG2Points := by
  unfold checkCounts at h
  split at h
  · cases h; left; rfl
  · split at h
    · cases h; right; rfl
    · cases h

/-- Decomposition of a successful pre-point pipeline into its stages. -/
theorem afterHeader_ok (file : List Nat) (numG1 numG2 : Nat) (d : Dir) (s1 : ByteStream)
    (h : afterHeader file numG1 numG2 = .ok (d, s1)) :
    ∃ s power, scanFile file = .ok (d, s) ∧ parseHeader d s = .ok (power, s1) ∧
      checkCounts power numG1 numG2 = none := by
  unfold afterHeader at h
  rcases hs : scanFile file with v | e | k
  rotate_left
  · rw [hs] at h; exact Outcome.noConfusion h
  · rw [hs] at h; exact Outcome.noConfusion h
  obtain ⟨d0, s0⟩ := v
  rw [hs] at h
  simp only at h
  cases hp : parseHeader d0 s0 with
  | err e => simp only [hp] at h; exact Outcome.noConfusion h
  | fatal k => simp only [hp] at h; exact Outcome.noConfusion h
  | ok w =>
    obtain ⟨power, sa⟩ := w
    simp only [hp] at h
    cases hc : checkCounts power numG1 numG2 with
    | some e => simp only [hc] at h; exact Outcome.noConfusion h
    | none =>
      simp only [hc] at h
      cases h
      exact ⟨s0, power, rfl, hp, hc⟩

/-- A successful pre-point pipeline leaves the underlying file unchanged. -/
theorem afterHeader_file (file : List Nat) (numG1 numG2 : Nat) (d : Dir) (s1 : ByteStream)
    (h : afterHeader file numG1 numG2 = .ok (d, s1)) : s1.file = file := by
  obtain ⟨s, power, hs, hp, _⟩ := afterHeader_ok file numG1 numG2 d s1 h
  rw [parseHeader_file d s power s1 hp, scanFile_file file d s hs]

/-- Reading 32 bytes after two 32-byte reads lands 64 bytes in. -/
theorem stepPos2_bytesPad (file : List Nat) (pos n : Nat) :
    bytesPad file (stepPos file (stepPos file pos 32) 32) n = bytesPad file (pos + 64) n := by
  rw [stepPos_bytesPad, stepPos_bytesPad_add]

/-- Reading 32 bytes after three 32-byte reads lands 96 bytes in. -/
theorem stepPos3_bytesPad (file : List Nat) (pos n : Nat) :
    bytesPad file (stepPos file (stepPos file (stepPos file pos 32) 32) 32) n
      = bytesPad file (pos + 96) n := by
  rw [stepPos_bytesPad, stepPos_bytesPad_add, stepPos_bytesPad_add]

/-- The first G1 record decoded by the loop is record 0 at the loop's start
position. -/
theorem g1Loop_head (file : List Nat) (pos : Nat) :
    mkG1 (bytesPad file pos 32) (bytesPad file (stepPos file pos 32) 32) = g1At file pos 0 := by
  unfold g1At
  rw [stepPos_bytesPad]
  norm_num

/-- Record `j` relative to the position after one 64-byte G1 record is
record `j + 1` relative to the original position. -/
theorem g1At_step (file : List Nat) (pos j : Nat) :
    g1At file (stepPos file (stepPos file pos 32) 32) j = g1At file pos (j + 1) := by
  have h1 : ∀ m n, bytesPad file (stepPos file (stepPos file pos 32) 32 + m) n
      = bytesPad file (pos + (64 + m)) n := by
    intro m n
    rw [stepPos_bytesPad_add, stepPos_bytesPad_add]
    have e : pos + (32 + (32 + m)) = pos + (64 + m) := by omega
    rw [e]
  unfold g1At
  simp only [Nat.add_assoc, h1]
  have e1 : pos + (64 + 64 * j) = pos + 64 * (j + 1) := by omega
  have e2 : pos + (64 + (64 * j + 32)) = pos + (64 * (j + 1) + 32) := by omega
  rw [e1, e2]

/-- The first G2 record decoded by the loop is record 0 at the loop's start
position. -/
theorem g2Loop_head (file : List Nat) (pos : Nat) :
    mkG2 (bytesPad file pos 32) (bytesPad file (stepPos file pos 32) 32)
        (bytesPad file (stepPos file (stepPos file pos 32) 32) 32)
        (bytesPad file (stepPos file (stepPos file (stepPos file pos 32) 32) 32) 32)
      = g2At file pos 0 := by
  unfold g2At
  rw [stepPos_bytesPad, stepPos2_bytesPad, stepPos3_bytesPad]
  norm_num

/-- Record `j` relative to the position after one 128-byte G2 record is
record `j + 1` relative to the original position. -/
theorem g2At_step (file : List Nat) (pos j : Nat) :
    g2At file
        (stepPos file (stepPos file (stepPos file (stepPos file pos 32) 32) 32) 32) j
      = g2At file pos (j + 1) := by
  have h1 : ∀ m n,
      bytesPad file
          (stepPos file (stepPos file (stepPos file (stepPos file pos 32) 32) 32) 32 + m) n
        = bytesPad file (pos + (128 + m)) n := by
    intro m n
    rw [stepPos_bytesPad_add, stepPos_bytesPad_add, stepPos_bytesPad_add, stepPos_bytesPad_add]
    have e : pos + (32 + (32 + (32 + (32 + m)))) = pos + (128 + m) := by omega
    rw [e]
  unfold g2At
  simp only [Nat.add_assoc, h1]
  have e1 : pos + (128 + 128 * j) = pos + 128 * (j + 1) := by omega
  have e2 : pos + (128 + (128 * j + 32)) = pos + (128 * (j + 1) + 32) := by omega
  have e3 : pos + (128 + (128 * j + 64)) = pos + (128 * (j + 1) + 64) := by omega
  have e4 : pos + (128 + (128 * j + 96)) = pos + (128 * (j + 1) + 96) := by omega
  rw [e1, e2, e3, e4]

/-- The G1 loop never panics: its reads discard their error flags. -/
theorem readG1Points_no_fatal :
    ∀ (n : Nat) (s : ByteStream) (k : AbortKind), readG1Points n s ≠ .fatal k := by
  intro n
  induction n with
  | zero => intro s k h; cases h
  | succ n ih =>
    intro s k h
    simp only [readG1Points] at h
    split at h
    · cases hrec : readG1Points n (readExact 32 (readExact 32 s).s).s with
      | ok p => rw [hrec] at h; obtain ⟨rest, sE⟩ := p; exact Outcome.noConfusion h
      | err e => rw [hrec] at h; exact Outcome.noConfusion h
      | fatal k1 => exact ih _ _ hrec
    · exact Outcome.noConfusion h

/-- The only typed error of the G1 loop is `InvalidG1Point`. -/
theorem readG1Points_err :
    ∀ (n : Nat) (s : ByteStream) (e : Error),
      readG1Points n s = .err e → e = .InvalidG1Point := by
  intro n
  induction n with
  | zero => intro s e h; cases h
  | succ n ih =>
    intro s e h
    simp only [readG1Points] at h
    split at h
    · cases hrec : readG1Points n (readExact 32 (readExact 32 s).s).s with
      | ok p => rw [hrec] at h; obtain ⟨rest, sE⟩ := p; exact Outcome.noConfusion h
      | err e1 => rw [hrec] at h; cases h; exact ih _ _ hrec
      | fatal k => rw [hrec] at h; exact Outcome.noConfusion h
    · cases h; rfl

/-- A successful run of the G1 loop returns exactly `n` points, the `i`-th
output being the decoded record `i` (in on-disk order) from the start
position, every output lying on the curve, and the file untouched. -/
theorem readG1Points_ok :
    ∀ (n : Nat) (s : ByteStream) (pts : List G1Pt) (sEnd : ByteStream),
      readG1Points n s = .ok (pts, sEnd) →
      pts.length = n ∧ (∀ i, i < n → pts[i]? = some (g1At s.file s.pos i)) ∧
        (∀ pt ∈ pts, onCurveG1 pt) ∧ sEnd.file = s.file := by
  intro n
  induction n with
  | zero =>
    intro s pts sEnd h
    simp only [readG1Points] at h
    cases h
    exact ⟨rfl, by omega, by simp, rfl⟩
  | succ n ih =>
    intro s pts sEnd h
    simp only [readG1Points] at h
    split at h
    · rename_i hcv
      cases hrec : readG1Points n (readExact 32 (readExact 32 s).s).s with
      | err e1 => rw [hrec] at h; exact Outcome.noConfusion h
      | fatal k => rw [hrec] at h; exact Outcome.noConfusion h
      | ok p =>
        obtain ⟨rest, sE⟩ := p
        rw [hrec] at h
        cases h
        obtain ⟨hlen, hidx, hon, hfile⟩ := ih _ _ _ hrec
        refine ⟨by simp [hlen], ?_, ?_, hfile⟩
        · intro i hi
          cases i with
          | zero =>
            simp only [List.getElem?_cons_zero, readExact]
            rw [g1Loop_head]
          | succ j =>
            simp only [List.getElem?_cons_succ]
            have hj : j < n := by omega
            have := hidx j hj
            simp only [readExact] at this
            rw [this, g1At_step]
        · intro pt hmem
          rcases List.mem_cons.mp hmem with hmem | hmem
          · rw [hmem]; exact hcv
          · exact hon pt hmem
    · exact Outcome.noConfusion h

/-- When the first off-curve record is record `i < n`, the G1 loop fails
with `InvalidG1Point`, returning nothing. -/
theorem readG1Points_firstFail :
    ∀ (n : Nat) (s : ByteStream) (i : Nat), i < n →
      (∀ j, j < i → onCurveG1 (g1At s.file s.pos j)) →
      ¬ onCurveG1 (g1At s.file s.pos i) →
      readG1Points n s = .err .InvalidG1Point := by
  intro n
  induction n with
  | zero => intro s i hi; omega
  | succ n ih =>
    intro s i hi hpre hbad
    simp only [readG1Points]
    split
    · rename_i hcv
      rw [readExact, readExact] at hcv
      simp only at hcv
      rw [g1Loop_head] at hcv
      cases i with
      | zero => exact absurd hcv hbad
      | succ j =>
        have hj : j < n := by omega
        have hrec : readG1Points n (readExact 32 (readExact 32 s).s).s = .err .InvalidG1Point := by
          apply ih _ j hj
          · intro j1 hj1
            show onCurveG1 (g1At s.file (stepPos s.file (stepPos s.file s.pos 32) 32) j1)
            rw [g1At_step]
            exact hpre (j1 + 1) (by omega)
          · show ¬ onCurveG1 (g1At s.file (stepPos s.file (stepPos s.file s.pos 32) 32) j)
            rw [g1At_step]
            exact hbad
        rw [hrec]
    · rfl

/-- The G2 loop never panics: its reads discard their error flags. -/
theorem readG2Points_no_fatal :
    ∀ (n : Nat) (s : ByteStream) (k : AbortKind), readG2Points n s ≠ .fatal k := by
  intro n
  induction n with
  | zero => intro s k h; cases h
  | succ n ih =>
    intro s k h
    simp only [readG2Points] at h
    split at h
    · cases hrec : readG2Points n
          (readExact 32 (readExact 32 (readExact 32 (readExact 32 s).s).s).s).s with
      | ok p => rw [hrec] at h; obtain ⟨rest, sE⟩ := p; exact Outcome.noConfusion h
      | err e => rw [hrec] at h; exact Outcome.noConfusion h
      | fatal k1 => exact ih _ _ hrec
    · exact Outcome.noConfusion h

/-- The only typed error of the G2 loop is `InvalidG2Point`. -/
theorem readG2Points_err :
    ∀ (n : Nat) (s : ByteStream) (e : Error),
      readG2Points n s = .err e → e = .InvalidG2Point := by
  intro n
  induction n with
  | zero => intro s e h; cases h
  | succ n ih =>
    intro s e h
    simp only [readG2Points] at h
    split at h
    · cases hrec : readG2Points n
          (readExact 32 (readExact 32 (readExact 32 (readExact 32 s).s).s).s).s with
      | ok p => rw [hrec] at h; obtain ⟨rest, sE⟩ := p; exact Outcome.noConfusion h
      | err e1 => rw [hrec] at h; cases h; exact ih _ _ hrec
      | fatal k => rw [hrec] at h; exact Outcome.noConfusion h
    · cases h; rfl

/-- A successful run of the G2 loop returns exactly `n` points, the `i`-th
output being the decoded record `i` (in on-disk order) from the start
position, every output lying on the twisted curve, and the file untouched. -/
theorem readG2Points_ok :
    ∀ (n : Nat) (s : ByteStream) (pts : List G2Pt) (sEnd : ByteStream),
      readG2Points n s = .ok (pts, sEnd) →
      pts.length = n ∧ (∀ i, i < n → pts[i]? = some (g2At s.file s.pos i)) ∧
        (∀ pt ∈ pts, onCurveG2 pt) ∧ sEnd.file = s.file := by
  intro n
  induction n with
  | zero =>
    intro s pts sEnd h
    simp only [readG2Points] at h
    cases h
    exact ⟨rfl, by omega, by simp, rfl⟩
  | succ n ih =>
    intro s pts sEnd h
    simp only [readG2Points] at h
    split at h
    · rename_i hcv
      cases hrec : readG2Points n
          (readExact 32 (readExact 32 (readExact 32 (readExact 32 s).s).s).s).s with
      | err e1 => rw [hrec] at h; exact Outcome.noConfusion h
      | fatal k => rw [hrec] at h; exact Outcome.noConfusion h
      | ok p =>
        obtain ⟨rest, sE⟩ := p
        rw [hrec] at h
        cases h
        obtain ⟨hlen, hidx, hon, hfile⟩ := ih _ _ _ hrec
        refine ⟨by simp [hlen], ?_, ?_, hfile⟩
        · intro i hi
          cases i with
          | zero =>
            simp only [List.getElem?_cons_zero, readExact]
            rw [g2Loop_head]
          | succ j =>
            simp only [List.getElem?_cons_succ]
            have hj : j < n := by omega
            have := hidx j hj
            simp only [readExact] at this
            rw [this, g2At_step]
        · intro pt hmem
          rcases List.mem_cons.mp hmem with hmem | hmem
          · rw [hmem]; exact hcv
          · exact hon pt hmem
    · exact Outcome.noConfusion h

set_option maxHeartbeats 1600000 in
/-- When the first off-twist record is record `i < n`, the G2 loop fails
with `InvalidG2Point`, returning nothing. -/
theorem readG2Points_firstFail :
    ∀ (n : Nat) (s : ByteStream) (i : Nat), i < n →
      (∀ j, j < i → onCurveG2 (g2At s.file s.pos j)) →
      ¬ onCurveG2 (g2At s.file s.pos i) →
      readG2Points n s = .err .InvalidG2Point := by
  intro n
  induction n with
  | zero => intro s i hi; omega
  | succ n ih =>
    intro s i hi hpre hbad
    simp only [readG2Points]
    split
    · rename_i hcv
      rw [readExact, readExact, readExact, readExact] at hcv
      simp only at hcv
      rw [g2Loop_head] at hcv
      cases i with
      | zero => exact absurd hcv hbad
      | succ j =>
        have hj : j < n := by omega
        have hrec : readG2Points n
            (readExact 32 (readExact 32 (readExact 32 (readExact 32 s).s).s).s).s
            = .err .InvalidG2Point := by
          apply ih _ j hj
          · intro j1 hj1
            show onCurveG2 (g2At s.file
              (stepPos s.file (stepPos s.file (stepPos s.file (stepPos s.file s.pos 32) 32) 32) 32) j1)
            rw [g2At_step]
            exact hpre (j1 + 1) (by omega)
          · show ¬ onCurveG2 (g2At s.file
              (stepPos s.file (stepPos s.file (stepPos s.file (stepPos s.file s.pos 32) 32) 32) 32) j)
            rw [g2At_step]
            exact hbad
        rw [hrec]
    · rfl

/-- The modulus check passes exactly when neither rejection condition holds. -/
theorem checkModulus_none (q : List Nat) :
    checkModulus q = none ↔ ¬(q.count 0 = 32 ∨ (leNat q : Fq) ≠ 0) := by
  unfold checkModulus
  split
  · simp_all
  · split
    · simp_all
    · simp_all

/-- The only typed errors of the two point stages are the two point errors. -/
theorem pointStages_err (d : Dir) (s : ByteStream) (numG1 numG2 : Nat) (e : Error)
    (h : pointStages d s numG1 numG2 = .err e) :
    e = .InvalidG1Point ∨ e = .InvalidG2Point := by
  unfold pointStages at h
  cases hl2 : lookupDir d 2 with
  | none => simp only [hl2] at h; exact Outcome.noConfusion h
  | some off2 =>
    simp only [hl2] at h
    cases hg1 : readG1Points numG1 (seekTo s off2) with
    | err e1 => simp only [hg1] at h; cases h; exact Or.inl (readG1Points_err _ _ _ hg1)
    | fatal k => simp only [hg1] at h; exact Outcome.noConfusion h
    | ok v =>
      obtain ⟨g1s, s2⟩ := v
      simp only [hg1] at h
      cases hl3 : lookupDir d 3 with
      | none => simp only [hl3] at h; exact Outcome.noConfusion h
      | some off3 =>
        simp only [hl3] at h
        cases hg2 : readG2Points numG2 (seekTo s2 off3) with
        | err e1 => simp only [hg2] at h; cases h; exact Or.inr (readG2Points_err _ _ _ hg2)
        | fatal k => simp only [hg2] at h; exact Outcome.noConfusion h
        | ok w =>
          obtain ⟨g2s, s3⟩ := w
          simp only [hg2] at h
          exact Outcome.noConfusion h

/-- With sections 2 and 3 present, the point stages cannot panic. -/
theorem pointStages_no_fatal (d : Dir) (s : ByteStream) (numG1 numG2 o2 o3 : Nat)
    (h2 : lookupDir d 2 = some o2) (h3 : lookupDir d 3 = some o3) (k : AbortKind) :
    pointStages d s numG1 numG2 ≠ .fatal k := by
  intro h
  unfold pointStages at h
  simp only [h2] at h
  cases hg1 : readG1Points numG1 (seekTo s o2) with
  | err e1 => simp only [hg1] at h; exact Outcome.noConfusion h
  | fatal k1 => exact readG1Points_no_fatal _ _ _ hg1
  | ok v =>
    obtain ⟨g1s, s2⟩ := v
    simp only [hg1, h3] at h
    cases hg2 : readG2Points numG2 (seekTo s2 o3) with
    | err e1 => simp only [hg2] at h; exact Outcome.noConfusion h
    | fatal k1 => exact readG2Points_no_fatal _ _ _ hg2
    | ok w =>
      obtain ⟨g2s, s3⟩ := w
      simp only [hg2] at h
      exact Outcome.noConfusion h

/-- With the header section present in the directory, the only panic the
pre-point pipeline can raise is a short read. -/
theorem afterHeader_fatal (file : List Nat) (numG1 numG2 : Nat) (d : Dir) (s : ByteStream)
    (o1 : Nat) (k : AbortKind) (hs : scanFile file = .ok (d, s))
    (hl1 : lookupDir d 1 = some o1)
    (h : afterHeader file numG1 numG2 = .fatal k) : k = .shortRead := by
  unfold afterHeader at h
  rw [hs] at h
  simp only at h
  cases hp : parseHeader d s with
  | err e => simp only [hp] at h; exact Outcome.noConfusion h
  | fatal k1 =>
    simp only [hp] at h
    cases h
    exact parseHeader_fatal d s o1 _ hl1 hp
  | ok w =>
    obtain ⟨power, s1⟩ := w
    simp only [hp] at h
    cases hc : checkCounts power numG1 numG2 with
    | some e => simp only [hc] at h; exact Outcome.noConfusion h
    | none => simp only [hc] at h; exact Outcome.noConfusion h

/-- C4 (amended): for every file whose first 4 magic bytes (zero-padded when
the file is shorter than 4 bytes) form valid UTF-8 and differ from "ptau",
`read` fails with `InvalidMagicString`; the quantification over the whole
rest of the file shows the failure happens before any section is read.  (As
stated over all possible 4-byte values the claim fails: invalid UTF-8 makes
the `from_utf8(..).unwrap()` panic instead, see the counterexample.) -/
theorem magic_string_rejected (file : List Nat) (numG1 numG2 : Nat)
    (h1 : validUtf8 (bytesPad file 0 4) = true)
    (h2 : bytesPad file 0 4 ≠ ptauMagic) :
    read file numG1 numG2 = .err .InvalidMagicString := by
  have hs : scanFile file = .err .InvalidMagicString := by
    simp only [scanFile, readExact]
    rw [if_pos h1, if_neg h2]
  simp [read, afterHeader, hs]

/-- C4 witness: a file starting with the ASCII bytes "abcd". -/
theorem magic_string_rejected_witness :
    read [97, 98, 99, 100] 0 0 = .err .InvalidMagicString :=
  magic_string_rejected [97, 98, 99, 100] 0 0 (by decide) (by decide)

/-- C4 counterexample: a file whose first 4 bytes are `0xFF FF FF FF` is not
valid UTF-8, and `read` panics in the UTF-8 conversion instead of returning
the typed `InvalidMagicString` error. -/
theorem magic_string_counterexample :
    read [255, 255, 255, 255] 0 0 = .fatal .utf8Error ∧
      read [255, 255, 255, 255] 0 0 ≠ .err .InvalidMagicString := by
  constructor
  · decide
  · decide

/-- C8: `read` is deterministic: on equal file contents and equal requested
counts, two runs produce identical results (the embedding of the reader is a
pure function of the file bytes and the two counts; the source uses no
global state, randomness or time). -/
theorem read_deterministic (f1 f2 : List Nat) (numG1 numG2 : Nat) (h : f1 = f2) :
    read f1 numG1 numG2 = read f2 numG1 numG2 := by
  rw [h]

/-- C8 witness. -/
theorem read_deterministic_witness : read fileGood 1 0 = read fileGood 1 0 :=
  read_deterministic fileGood fileGood 1 0 rfl

/-- C7: the Header Scanner checks no section length against the file size:
its only typed errors are the magic, version and section-count checks, for
every input file; and a truncated file (here: the directory declares a
1000-byte section 1 but the file ends right after the directory) scans
fine and surfaces as a read failure (a panic on a short read) in the
Field-Parameter stage. -/
theorem header_scan_no_size_check :
    (∀ (file : List Nat) (e : Error), scanFile file = .err e →
      e = .InvalidMagicString ∨ e = .InvalidVersion ∨ e = .InvalidNumSections) ∧
    (∃ ds, scanFile fileTrunc = .ok ds) ∧ read fileTrunc 0 0 = .fatal .shortRead := by
  refine ⟨scanFile_err, ?_, by decide⟩
  have hb : (match scanFile fileTrunc with
    | Outcome.ok _ => true
    | _ => false) = true := by decide
  rcases h : scanFile fileTrunc with v | e | k
  · exact ⟨v, rfl⟩
  · rw [h] at hb; simp at hb
  · rw [h] at hb; simp at hb

/-- C7 witness: instantiating the universal part at the empty file, which
fails the magic check. -/
theorem header_scan_no_size_check_witness :
    Error.InvalidMagicString = Error.InvalidMagicString ∨
      Error.InvalidMagicString = Error.InvalidVersion ∨
      Error.InvalidMagicString = Error.InvalidNumSections :=
  header_scan_no_size_check.1 [] Error.InvalidMagicString (by decide)

/-- For `power < 64` the wrapped shift computes the exact power of two. -/
theorem maxG2Of_eq (power : Nat) (h : power < 64) : maxG2Of power = 2 ^ power := by
  unfold maxG2Of
  rw [Nat.shiftLeft_eq, one_mul, Nat.mod_eq_of_lt h]
  exact Nat.mod_eq_of_lt (Nat.pow_lt_pow_right (by norm_num) h)

/-- For `power < 64` the wrapped product-and-decrement computes the exact
G1 bound (at `power = 63` the intermediate product wraps to zero but the
wrapped decrement restores the correct value `2^64 - 1`). -/
theorem maxG1Of_eq (power : Nat) (h : power < 64) : maxG1Of power = 2 * 2 ^ power - 1 := by
  rcases Nat.lt_or_ge power 63 with h63 | h63
  · unfold maxG1Of
    rw [maxG2Of_eq power h]
    have hp : 2 ^ power * 2 < 2 ^ 64 := by
      have e : (2 : Nat) ^ power * 2 = 2 ^ (power + 1) := by ring
      rw [e]
      exact Nat.pow_lt_pow_right (by norm_num) (by omega)
    have h1 : (1 : Nat) ≤ 2 ^ power := Nat.one_le_two_pow
    have e64 : (2 : Nat) ^ 64 = 18446744073709551616 := by norm_num
    rw [Nat.mod_eq_of_lt hp]
    rw [e64] at hp
    rw [e64]
    omega
  · have hp : power = 63 := by omega
    subst hp
    decide

/-- C10: `max_g2_points` is the machine shift `1 << power` on a 64-bit word,
so the identity `max_g2_points = 2 ^ power` (and with it
`max_g1_points = 2 * 2 ^ power - 1`) holds exactly under `power < 64`; for
`power ≥ 64` the shift wraps (the shift amount is reduced mod the word
width) and both derived bounds differ from their mathematical values. -/
theorem shift_overflow_bounds (power : Nat) :
    (power < 64 → maxG2Of power = 2 ^ power ∧ maxG1Of power = 2 * 2 ^ power - 1) ∧
    (64 ≤ power → maxG2Of power ≠ 2 ^ power ∧ maxG1Of power ≠ 2 * 2 ^ power - 1) := by
  constructor
  · intro h
    exact ⟨maxG2Of_eq power h, maxG1Of_eq power h⟩
  · intro h
    have hB : (1 : Nat) ≤ 2 ^ 64 := Nat.one_le_two_pow
    have h2 : 2 ^ 64 ≤ 2 ^ power := Nat.pow_le_pow_right (by norm_num) h
    have hg2 : maxG2Of power < 2 ^ 64 := by
      unfold maxG2Of
      exact Nat.mod_lt _ (by positivity)
    have hg1 : maxG1Of power < 2 ^ 64 := by
      unfold maxG1Of
      exact Nat.mod_lt _ (by positivity)
    constructor
    · omega
    · omega

/-- C10 witness: the bounds are exact at `power = 8` and wrapped at
`power = 64`. -/
theorem shift_overflow_bounds_witness :
    (maxG2Of 8 = 2 ^ 8 ∧ maxG1Of 8 = 2 * 2 ^ 8 - 1) ∧
      (maxG2Of 64 ≠ 2 ^ 64 ∧ maxG1Of 64 ≠ 2 * 2 ^ 64 - 1) :=
  ⟨(shift_overflow_bounds 8).1 (by decide), (shift_overflow_bounds 64).2 (by decide)⟩

/-- C1 (amended): for every file whose header declares a power `p < 64`,
`read` derives `max_g2_points = 2^p` and `max_g1_points = 2*2^p - 1`, fails
with `InvalidNumG1Points` whenever the requested G1 count exceeds the G1
bound (regardless of the G2 count: the G1 check is evaluated first), and
fails with `InvalidNumG2Points` whenever the G1 check passes and the G2
count exceeds the G2 bound.  (The restriction `p < 64` is forced by the
64-bit shift; see the counterexample at `p = 64`.) -/
theorem count_checks (file : List Nat) (power numG1 numG2 : Nat)
    (hp : headerPowerOf file = some power) (hlt : power < 64) :
    maxG2Of power = 2 ^ power ∧ maxG1Of power = 2 * 2 ^ power - 1 ∧
    (2 * 2 ^ power - 1 < numG1 → read file numG1 numG2 = .err .InvalidNumG1Points) ∧
    (numG1 ≤ 2 * 2 ^ power - 1 → 2 ^ power < numG2 →
      read file numG1 numG2 = .err .InvalidNumG2Points) := by
  obtain ⟨d, s, s1, hs, hph⟩ :
      ∃ d s s1, scanFile file = .ok (d, s) ∧ parseHeader d s = .ok (power, s1) := by
    unfold headerPowerOf at hp
    cases hs : scanFile file with
    | err e => rw [hs] at hp; exact Option.noConfusion hp
    | fatal k => rw [hs] at hp; exact Option.noConfusion hp
    | ok v =>
      obtain ⟨d, s⟩ := v
      rw [hs] at hp
      simp only at hp
      cases hph : parseHeader d s with
      | err e => rw [hph] at hp; exact Option.noConfusion hp
      | fatal k => rw [hph] at hp; exact Option.noConfusion hp
      | ok w =>
        obtain ⟨pw, s1⟩ := w
        rw [hph] at hp
        simp only at hp
        cases hp
        exact ⟨d, s, s1, rfl, hph⟩
  have hg2 := maxG2Of_eq power hlt
  have hg1 := maxG1Of_eq power hlt
  refine ⟨hg2, hg1, ?_, ?_⟩
  · intro hn1
    have hcc : checkCounts power numG1 numG2 = some .InvalidNumG1Points := by
      unfold checkCounts
      rw [if_pos]
      rw [hg1]
      exact hn1
    simp [read, afterHeader, hs, hph, hcc]
  · intro hn1 hn2
    have hcc : checkCounts power numG1 numG2 = some .InvalidNumG2Points := by
      unfold checkCounts
      rw [if_neg, if_pos]
      · rw [hg2]; exact hn2
      · rw [hg1]; omega
    simp [read, afterHeader, hs, hph, hcc]

/-- C1 witness: the spec's power-8 example, `max_g2 = 256`, `max_g1 = 511`;
512 G1 points are rejected as `InvalidNumG1Points`, 257 G2 points as
`InvalidNumG2Points`. -/
theorem count_checks_witness :
    maxG2Of 8 = 2 ^ 8 ∧ maxG1Of 8 = 2 * 2 ^ 8 - 1 ∧
      read file8 512 0 = .err .InvalidNumG1Points ∧
      read file8 0 257 = .err .InvalidNumG2Points :=
  ⟨(count_checks file8 8 512 0 (by decide) (by decide)).1,
   (count_checks file8 8 512 0 (by decide) (by decide)).2.1,
   (count_checks file8 8 512 0 (by decide) (by decide)).2.2.1 (by decide),
   (count_checks file8 8 0 257 (by decide) (by decide)).2.2.2 (by decide) (by decide)⟩

/-- C1 counterexample: at declared power 64 the shift wraps, the derived
bounds are 1 and 1 rather than `2^64` and `2*2^64 - 1`, and requesting just
2 G1 points is rejected, so `read` does not derive `max_g2_points = 2^p`
for every declared power `p`. -/
theorem count_checks_counterexample :
    maxG2Of 64 ≠ 2 ^ 64 ∧ maxG1Of 64 ≠ 2 * 2 ^ 64 - 1 ∧
      headerPowerOf file64 = some 64 ∧ read file64 2 0 = .err .InvalidNumG1Points := by
  refine ⟨by decide, by decide, by decide, by decide⟩

/-- C9: each of the three section lookups `sections[&1]`, `sections[&2]`,
`sections[&3]` panics (rather than returning a typed error) when control
reaches it and the identifier is absent from the scanned directory; and
when identifiers 1, 2 and 3 are all present no missing-section panic is
reachable at all. -/
theorem section_lookup_panics :
    (∀ (file : List Nat) (numG1 numG2 : Nat) (d : Dir) (s : ByteStream),
      scanFile file = .ok (d, s) → lookupDir d 1 = none →
      read file numG1 numG2 = .fatal (.missingSection 1)) ∧
    (∀ (file : List Nat) (numG1 numG2 : Nat) (d : Dir) (s s1 : ByteStream) (power : Nat),
      scanFile file = .ok (d, s) → parseHeader d s = .ok (power, s1) →
      checkCounts power numG1 numG2 = none → lookupDir d 2 = none →
      read file numG1 numG2 = .fatal (.missingSection 2)) ∧
    (∀ (file : List Nat) (numG1 numG2 : Nat) (d : Dir) (s s1 : ByteStream) (power off2 : Nat)
      (g1s : List G1Pt) (s2 : ByteStream),
      scanFile file = .ok (d, s) → parseHeader d s = .ok (power, s1) →
      checkCounts power numG1 numG2 = none → lookupDir d 2 = some off2 →
      readG1Points numG1 (seekTo s1 off2) = .ok (g1s, s2) → lookupDir d 3 = none →
      read file numG1 numG2 = .fatal (.missingSection 3)) ∧
    (∀ (file : List Nat) (numG1 numG2 : Nat) (d : Dir) (s : ByteStream) (o1 o2 o3 : Nat),
      scanFile file = .ok (d, s) → lookupDir d 1 = some o1 → lookupDir d 2 = some o2 →
      lookupDir d 3 = some o3 →
      ∀ (k : Nat), read file numG1 numG2 ≠ .fatal (.missingSection k)) := by
  refine ⟨?_, ?_, ?_, ?_⟩
  · intro file numG1 numG2 d s hs hl1
    have hph : parseHeader d s = .fatal (.missingSection 1) := by
      simp [parseHeader, hl1]
    simp [read, afterHeader, hs, hph]
  · intro file numG1 numG2 d s s1 power hs hph hcc hl2
    simp [read, afterHeader, hs, hph, hcc, pointStages, hl2]
  · intro file numG1 numG2 d s s1 power off2 g1s s2 hs hph hcc hl2 hg1 hl3
    simp [read, afterHeader, hs, hph, hcc, pointStages, hl2, hg1, hl3]
  · intro file numG1 numG2 d s o1 o2 o3 hs hl1 hl2 hl3 k h
    unfold read at h
    cases hah : afterHeader file numG1 numG2 with
    | err e => rw [hah] at h; exact Outcome.noConfusion h
    | fatal k1 =>
      rw [hah] at h
      cases h
      have := afterHeader_fatal file numG1 numG2 d s o1 _ hs hl1 hah
      exact AbortKind.noConfusion this
    | ok v =>
      obtain ⟨d1, s1⟩ := v
      rw [hah] at h
      simp only at h
      obtain ⟨s0, power, hs0, _, _⟩ := afterHeader_ok file numG1 numG2 d1 s1 hah
      have hd : d1 = d := by
        rw [hs] at hs0
        exact (Prod.mk.injEq _ _ _ _).mp (Outcome.ok.inj hs0.symm) |>.1
      subst hd
      exact pointStages_no_fatal d1 s1 numG1 numG2 o2 o3 hl2 hl3 _ h

/-- C9 witness: a file whose directory has identifiers 4-14 only; the
`sections[&1]` lookup panics. -/
theorem section_lookup_panics_witness :
    read fileNo1 0 0 = .fatal (.missingSection 1) :=
  section_lookup_panics.1 fileNo1 0 0
    [(14, 144), (13, 132), (12, 120), (11, 108), (10, 96), (9, 84), (8, 72), (7, 60),
     (6, 48), (5, 36), (4, 24)]
    ⟨fileNo1, 144⟩ (by decide) (by decide)

/-- C2: whenever `read` returns `Ok`, the first sequence holds exactly the
requested number of G1 points and the second exactly the requested number of
G2 points, output index `i` is the decoded on-disk record `i` of the
corresponding section (on-disk record order), and every returned point
satisfies its group's curve equation. -/
theorem read_ok_shape (file : List Nat) (numG1 numG2 : Nat)
    (g1s : List G1Pt) (g2s : List G2Pt)
    (h : read file numG1 numG2 = .ok (g1s, g2s)) :
    g1s.length = numG1 ∧ g2s.length = numG2 ∧
    (∃ off2, g1StageOff file numG1 numG2 = some off2 ∧
      ∀ i, i < numG1 → g1s[i]? = some (g1At file off2 i)) ∧
    (∃ off3, g2StageOff file numG1 numG2 = some off3 ∧
      ∀ i, i < numG2 → g2s[i]? = some (g2At file off3 i)) ∧
    (∀ pt ∈ g1s, onCurveG1 pt) ∧ (∀ pt ∈ g2s, onCurveG2 pt) := by
  unfold read at h
  cases hah : afterHeader file numG1 numG2 with
  | err e => rw [hah] at h; exact Outcome.noConfusion h
  | fatal k => rw [hah] at h; exact Outcome.noConfusion h
  | ok v =>
    obtain ⟨d, s⟩ := v
    rw [hah] at h
    simp only at h
    have hsfile : s.file = file := afterHeader_file file numG1 numG2 d s hah
    unfold pointStages at h
    cases hl2 : lookupDir d 2 with
    | none => rw [hl2] at h; exact Outcome.noConfusion h
    | some off2 =>
      rw [hl2] at h
      simp only at h
      cases hg1 : readG1Points numG1 (seekTo s off2) with
      | err e => rw [hg1] at h; exact Outcome.noConfusion h
      | fatal k => rw [hg1] at h; exact Outcome.noConfusion h
      | ok v1 =>
        obtain ⟨g1s1, s2⟩ := v1
        rw [hg1] at h
        simp only at h
        cases hl3 : lookupDir d 3 with
        | none => rw [hl3] at h; exact Outcome.noConfusion h
        | some off3 =>
          rw [hl3] at h
          simp only at h
          cases hg2 : readG2Points numG2 (seekTo s2 off3) with
          | err e => rw [hg2] at h; exact Outcome.noConfusion h
          | fatal k => rw [hg2] at h; exact Outcome.noConfusion h
          | ok v2 =>
            obtain ⟨g2s1, s3⟩ := v2
            rw [hg2] at h
            simp only at h
            cases h
            obtain ⟨hlen1, hidx1, hon1, hfile1⟩ := readG1Points_ok numG1 _ _ _ hg1
            obtain ⟨hlen2, hidx2, hon2, hfile2⟩ := readG2Points_ok numG2 _ _ _ hg2
            have hfs2 : s2.file = file := by
              have : (seekTo s off2).file = s.file := rfl
              rw [this] at hfile1
              rw [hfile1, hsfile]
            refine ⟨hlen1, hlen2, ⟨off2, ?_, ?_⟩, ⟨off3, ?_, ?_⟩, hon1, hon2⟩
            · simp [g1StageOff, hah, hl2]
            · intro i hi
              rw [hidx1 i hi]
              simp only [seekTo]
              rw [hsfile]
            · simp [g2StageOff, hah, hl2, hg1, hl3]
            · intro i hi
              rw [hidx2 i hi]
              simp only [seekTo]
              rw [hfs2]

/-- C2 witness: `fileGood` holds the single on-curve generator `(1, 2)`;
reading 1 G1 point and 0 G2 points yields exactly those outputs with the
stated shape. -/
theorem read_ok_shape_witness :
    ([((1 : Fq), (2 : Fq))] : List G1Pt).length = 1 ∧ ([] : List G2Pt).length = 0 ∧
    (∃ off2, g1StageOff fileGood 1 0 = some off2 ∧
      ∀ i, i < 1 → ([((1 : Fq), (2 : Fq))] : List G1Pt)[i]? = some (g1At fileGood off2 i)) ∧
    (∃ off3, g2StageOff fileGood 1 0 = some off3 ∧
      ∀ i, i < 0 → ([] : List G2Pt)[i]? = some (g2At fileGood off3 i)) ∧
    (∀ pt ∈ ([((1 : Fq), (2 : Fq))] : List G1Pt), onCurveG1 pt) ∧
    (∀ pt ∈ ([] : List G2Pt), onCurveG2 pt) :=
  read_ok_shape fileGood 1 0 [((1 : Fq), (2 : Fq))] [] (by decide)

/-- C5: when every stage before the G1 decoder succeeds and record `i` of
the G1 section (for some `i` below the requested count) is the first
off-curve record, `read` returns `Err(InvalidG1Point)` — the `err` result
carries no points at all, so not even the earlier valid records are
returned; symmetrically for the first off-twist G2 record and
`Err(InvalidG2Point)`. -/
theorem off_curve_aborts :
    (∀ (file : List Nat) (numG1 numG2 off2 i : Nat),
      g1StageOff file numG1 numG2 = some off2 → i < numG1 →
      (∀ j, j < i → onCurveG1 (g1At file off2 j)) → ¬ onCurveG1 (g1At file off2 i) →
      read file numG1 numG2 = .err .InvalidG1Point) ∧
    (∀ (file : List Nat) (numG1 numG2 off3 i : Nat),
      g2StageOff file numG1 numG2 = some off3 → i < numG2 →
      (∀ j, j < i → onCurveG2 (g2At file off3 j)) → ¬ onCurveG2 (g2At file off3 i) →
      read file numG1 numG2 = .err .InvalidG2Point) := by
  constructor
  · intro file numG1 numG2 off2 i hoff hi hpre hbad
    unfold g1StageOff at hoff
    cases hah : afterHeader file numG1 numG2 with
    | err e => rw [hah] at hoff; exact Option.noConfusion hoff
    | fatal k => rw [hah] at hoff; exact Option.noConfusion hoff
    | ok v =>
      obtain ⟨d, s⟩ := v
      rw [hah] at hoff
      simp only at hoff
      have hsfile : s.file = file := afterHeader_file file numG1 numG2 d s hah
      have hfail : readG1Points numG1 (seekTo s off2) = .err .InvalidG1Point := by
        apply readG1Points_firstFail numG1 (seekTo s off2) i hi
        · intro j hj
          show onCurveG1 (g1At s.file off2 j)
          rw [hsfile]
          exact hpre j hj
        · show ¬ onCurveG1 (g1At s.file off2 i)
          rw [hsfile]
          exact hbad
      simp [read, hah, pointStages, hoff, hfail]
  · intro file numG1 numG2 off3 i hoff hi hpre hbad
    unfold g2StageOff at hoff
    cases hah : afterHeader file numG1 numG2 with
    | err e => rw [hah] at hoff; exact Option.noConfusion hoff
    | fatal k => rw [hah] at hoff; exact Option.noConfusion hoff
    | ok v =>
      obtain ⟨d, s⟩ := v
      rw [hah] at hoff
      simp only at hoff
      have hsfile : s.file = file := afterHeader_file file numG1 numG2 d s hah
      cases hl2 : lookupDir d 2 with
      | none => rw [hl2] at hoff; exact Option.noConfusion hoff
      | some off2 =>
        rw [hl2] at hoff
        simp only at hoff
        cases hg1 : readG1Points numG1 (seekTo s off2) with
        | err e => rw [hg1] at hoff; exact Option.noConfusion hoff
        | fatal k => rw [hg1] at hoff; exact Option.noConfusion hoff
        | ok v1 =>
          obtain ⟨g1s, s2⟩ := v1
          rw [hg1] at hoff
          simp only at hoff
          have hfs2 : s2.file = file := by
            have h4 := (readG1Points_ok numG1 _ _ _ hg1).2.2.2
            have : (seekTo s off2).file = s.file := rfl
            rw [this] at h4
            rw [h4, hsfile]
          have hfail : readG2Points numG2 (seekTo s2 off3) = .err .InvalidG2Point := by
            apply readG2Points_firstFail numG2 (seekTo s2 off3) i hi
            · intro j hj
              show onCurveG2 (g2At s2.file off3 j)
              rw [hfs2]
              exact hpre j hj
            · show ¬ onCurveG2 (g2At s2.file off3 i)
              rw [hfs2]
              exact hbad
          simp [read, hah, pointStages, hl2, hg1, hoff, hfail]

/-- C5 witness: `fileBadG1` has the valid generator followed by the
off-curve record `(1, 3)`, rejected with `InvalidG1Point`; `fileBadG2` has
the single off-twist record `(0, 0)`, rejected with `InvalidG2Point`. -/
theorem off_curve_aborts_witness :
    read fileBadG1 2 0 = .err .InvalidG1Point ∧
      read fileBadG2 0 1 = .err .InvalidG2Point :=
  ⟨off_curve_aborts.1 fileBadG1 2 0 80 1 (by decide) (by decide)
      (by decide) (by decide),
   off_curve_aborts.2 fileBadG2 0 1 92 0 (by decide) (by decide)
      (by omega) (by decide)⟩

/-- When no element of the first list matches, searching the concatenation
searches the second list. -/
theorem find?_append_of_none {α : Type} (p : α → Bool) :
    ∀ (l1 l2 : List α), l1.find? p = none → (l1 ++ l2).find? p = l2.find? p := by
  intro l1
  induction l1 with
  | nil => intro l2 h; rfl
  | cons a l ih =>
    intro l2 h
    rw [List.find?_cons] at h
    cases hp : p a with
    | true => rw [hp] at h; exact Option.noConfusion h
    | false =>
      rw [hp] at h
      rw [List.cons_append, List.find?_cons, hp]
      exact ih l2 h

/-- C6: when the scanned entry list contains the same identifier `k` twice
(offsets `o1` then `o2`, with no later entry for `k`), the directory built
by the scanner loop resolves `k` to the later offset `o2`: the later
duplicate silently overwrites the earlier one, with no error. -/
theorem duplicate_section_overwrites (n : Nat) (s : ByteStream)
    (es l1 l2 l3 : List (Nat × Nat)) (sEnd : ByteStream) (k o1 o2 : Nat) (d0 : Dir)
    (he : entriesOf n s = .ok (es, sEnd))
    (hdecomp : es = l1 ++ (k, o1) :: l2 ++ (k, o2) :: l3)
    (hlast : ∀ e ∈ l3, e.1 ≠ k) :
    readSectionEntries n d0 s = .ok (es.reverse ++ d0, sEnd) ∧
      lookupDir (es.reverse ++ d0) k = some o2 := by
  constructor
  · rw [readSectionEntries_entriesOf, he]
  · subst hdecomp
    have h3 : (l3.reverse).find? (fun e => e.1 == k) = none := by
      rw [List.find?_eq_none]
      intro x hx
      simp only [beq_iff_eq]
      exact hlast x (List.mem_reverse.mp hx)
    unfold lookupDir
    simp only [List.reverse_append, List.reverse_cons, List.append_assoc]
    rw [find?_append_of_none _ _ _ h3]
    simp [List.find?_cons]

/-- C6 witness: `fileDup3` declares identifier 3 at directory entries 2 and
9 (payload offsets 48 and 132); the built directory maps 3 to 132. -/
theorem duplicate_section_overwrites_witness :
    readSectionEntries 11 [] ⟨fileDup3, 12⟩ =
      .ok (([(1, 24), (2, 36), (3, 48), (4, 60), (5, 72), (6, 84), (7, 96), (8, 108),
            (9, 120), (3, 132), (11, 144)].reverse ++ []), ⟨fileDup3, 144⟩) ∧
    lookupDir ([(1, 24), (2, 36), (3, 48), (4, 60), (5, 72), (6, 84), (7, 96), (8, 108),
            (9, 120), (3, 132), (11, 144)].reverse ++ []) 3 = some 132 :=
  duplicate_section_overwrites 11 ⟨fileDup3, 12⟩
    [(1, 24), (2, 36), (3, 48), (4, 60), (5, 72), (6, 84), (7, 96), (8, 108),
     (9, 120), (3, 132), (11, 144)]
    [(1, 24), (2, 36)] [(4, 60), (5, 72), (6, 84), (7, 96), (8, 108), (9, 120)]
    [(11, 144)] ⟨fileDup3, 144⟩ 3 48 132 []
    (by decide) (by decide) (by decide)

/-- C3 (amended): when the header section is present and its `n8` field is
readable, `read` fails with `InvalidPrimeOrder` exactly when the modulus
buffer (the `n8` bytes after the `n8` field) contains exactly 32 zero bytes
in total, or its little-endian value reduced mod the base-field modulus is
nonzero.  (The source counts zero bytes over the whole buffer and compares
the count with 32; it does not test whether the first 32 bytes are all
zero, see the counterexample.) -/
theorem prime_order_check (file : List Nat) (off numG1 numG2 : Nat)
    (hoff : section1Off file = some off) (hlen : off + 4 ≤ file.length) :
    (read file numG1 numG2 = .err .InvalidPrimeOrder ↔
      ((qBufAt file off).count 0 = 32 ∨ (leNat (qBufAt file off) : Fq) ≠ 0)) := by
  unfold section1Off at hoff
  cases hs : scanFile file with
  | err e => rw [hs] at hoff; exact Option.noConfusion hoff
  | fatal k => rw [hs] at hoff; exact Option.noConfusion hoff
  | ok v =>
    obtain ⟨d, s⟩ := v
    rw [hs] at hoff
    simp only at hoff
    have hsfile : s.file = file := scanFile_file file d s hs
    have hru : readU32 (seekTo s off) = .ok (leNat (bytesPad file off 4), ⟨file, off + 4⟩) := by
      simp only [readU32, readExact, seekTo, hsfile]
      have hc : (4 : Nat) ≤ file.length - off := by omega
      rw [if_pos (decide_eq_true hc)]
      rw [stepPos_of_le file (by omega)]
    cases hm : checkModulus (qBufAt file off) with
    | some e =>
      have he : e = .InvalidPrimeOrder := checkModulus_some _ _ hm
      subst he
      have hm2 : checkModulus ((readExact (leNat (bytesPad file off 4))
          ⟨file, off + 4⟩).buf) = some .InvalidPrimeOrder := hm
      have hph : parseHeader d s = .err .InvalidPrimeOrder := by
        simp only [parseHeader, hoff, hru]
        rw [hm2]
      have hread : read file numG1 numG2 = .err .InvalidPrimeOrder := by
        simp [read, afterHeader, hs, hph]
      exact iff_of_true hread ((checkModulus_some_iff _).mp hm)
    | none =>
      have hm2 : checkModulus ((readExact (leNat (bytesPad file off 4))
          ⟨file, off + 4⟩).buf) = none := hm
      have hneg : ¬((qBufAt file off).count 0 = 32 ∨ (leNat (qBufAt file off) : Fq) ≠ 0) :=
        (checkModulus_none _).mp hm
      refine iff_of_false ?_ hneg
      intro habs
      cases hp2 : readU32 (readExact (leNat (bytesPad file off 4)) ⟨file, off + 4⟩).s with
      | err e1 => exact readU32_no_err _ e1 hp2
      | fatal k =>
        have hph : parseHeader d s = .fatal k := by
          simp only [parseHeader, hoff, hru]
          rw [hm2]
          simp only [hp2]
        rw [read, afterHeader, hs] at habs
        simp only [hph] at habs
        exact Outcome.noConfusion habs
      | ok w =>
        obtain ⟨power, s2⟩ := w
        cases hp3 : readU32 s2 with
        | err e1 => exact readU32_no_err _ e1 hp3
        | fatal k =>
          have hph : parseHeader d s = .fatal k := by
            simp only [parseHeader, hoff, hru]
            rw [hm2]
            simp only [hp2, hp3]
          rw [read, afterHeader, hs] at habs
          simp only [hph] at habs
          exact Outcome.noConfusion habs
        | ok u =>
          obtain ⟨cer, s3⟩ := u
          have hph : parseHeader d s = .ok (power, s3) := by
            simp only [parseHeader, hoff, hru]
            rw [hm2]
            simp only [hp2, hp3]
          cases hcc : checkCounts power numG1 numG2 with
          | some e1 =>
            rw [read, afterHeader, hs] at habs
            simp only [hph, hcc] at habs
            cases habs
            rcases checkCounts_some power numG1 numG2 _ hcc with h1 | h1 <;>
              exact Error.noConfusion h1
          | none =>
            rw [read, afterHeader, hs] at habs
            simp only [hph, hcc] at habs
            rcases pointStages_err d s3 numG1 numG2 _ habs with h1 | h1 <;>
              exact Error.noConfusion h1

/-- C3 witness: the power-8 file carries the genuine modulus bytes (no 32
zero bytes, value reduces to zero), so neither rejection condition holds
and `read` does not fail with `InvalidPrimeOrder`. -/
theorem prime_order_check_witness :
    read file8 0 0 = .err .InvalidPrimeOrder ↔
      ((qBufAt file8 24).count 0 = 32 ∨ (leNat (qBufAt file8 24) : Fq) ≠ 0) :=
  prime_order_check file8 24 0 0 (by decide) (by decide)

/-- C3 counterexample: a 33-byte modulus buffer of all zeros is "all-zero
across its first 32 bytes", so the claim demands `InvalidPrimeOrder`; but
the buffer has 33 zero bytes, not 32, and its value reduces to zero, so the
code accepts it and `read` succeeds. -/
theorem prime_order_check_counterexample :
    specPrimeOrderRejects (List.replicate 33 0) = true ∧
      checkModulus (List.replicate 33 0) = none ∧
      qBufAt file33 24 = List.replicate 33 0 ∧
      read file33 0 0 = .ok ([], []) := by
  refine ⟨by decide, by decide, by decide, by decide⟩

end Ptau
